import Mathlib

/-!
# Verification of the Fraud App Analyser sentiment pipeline

A shallow embedding of the review sentiment-classification and
risk-aggregation pipeline of the repository (module
`modules/sentiment_analyzer.py` together with the module-level risk check
and the comparison helper of `fraud_app_analyzer3.py`), with theorems
settling the stated claims about it.

Modelling conventions:
* Python floats are modelled by `ℚ` (all the arithmetic involved is exact
  field arithmetic; the decimal literals 0.8, 0.1, 0.2, 0.6 are written as
  the rationals 4/5, 1/10, 1/5, 3/5).
* A review-text cell is a `PyVal`: either a string (a list of characters)
  or a non-string value, mirroring the `isinstance(text, str)` check.
* The TextBlob polarity model is an external library; it is passed as an
  explicit parameter `tb : List Char → ℚ` so every theorem holds for any
  polarity backend, exactly as the code leaves that branch to the library.
* A pandas DataFrame of reviews is modelled by `ReviewsDF`: two booleans
  recording whether the `content` and `at` columns exist, the list of
  `content` cells and the list of `at` cells. An `at` cell (`AtVal`) is
  modelled by what `pd.to_datetime` does with it — either it parses to a
  canonical datetime (modelled as an integer) or the parse raises — since
  the dateutil parser itself is an external library; `pd.to_datetime`
  over the column (`to_datetime`) raises exactly when some cell is
  unparseable.
* `process_reviews` mutates the caller's frame in place: the `polarity`
  and `sentiment` columns and the observer calls (lines 67–81,
  `review_mutation` here) happen before the line-82 timestamp parse, so
  they occur even on runs that then raise in `pd.to_datetime`.
* The Streamlit progress observer is modelled by an explicit list of the
  values passed to `progress_bar.progress`, in emission order.
* `pandas.value_counts` is modelled as the finite map (association list)
  from each sentiment label occurring in the column to its count; labels
  with count zero are absent, as in pandas.  The claims are only about
  the key set and the key→count mapping, never about entry order.
-/

namespace FraudAppAnalyser

/-- The three sentiment labels produced by the classifier. -/
inductive Sentiment where
  | Positive
  | Negative
  | Neutral
deriving DecidableEq, Repr

/-- A Python value stored in the `content` column: either a string or
some non-string value (the code only distinguishes these two cases). -/
inductive PyVal where
  | str (s : List Char)
  | nonStr
deriving DecidableEq, Repr

/-- `startsWithChars hay needle`: `needle` is an initial segment of `hay`
(character-exact comparison). -/
def startsWithChars : List Char → List Char → Bool
  | _, [] => true
  | [], _ :: _ => false
  | c :: hay, d :: needle => c == d && startsWithChars hay needle

/-- `containsSub hay needle`: `needle` occurs contiguously inside `hay`,
the meaning of Python's `needle in hay` on strings. -/
def containsSub : List Char → List Char → Bool
  | [], needle => needle.isEmpty
  | c :: rest, needle => startsWithChars (c :: rest) needle || containsSub rest needle

/-- The fixed fraud-indicator vocabulary `NEGATIVE_KEYWORDS` of
`modules/sentiment_analyzer.py`. -/
def NEGATIVE_KEYWORDS : List (List Char) :=
  ["scam", "scum", "useless", "fraud", "fake", "deceptive", "ripoff",
   "unresponsive", "broken", "glitch", "buggy", "crash", "malware",
   "phishing", "steal", "stolen", "lie", "lying", "cheat", "cheating",
   "misleading", "unreliable", "waste of time", "terrible", "horrible",
   "worst", "bad experience", "do not install", "uninstall", "delete",
   "warning", "beware", "deceitful", "untrustworthy"].map String.toList

/-- The keyword loop of `analyze_sentiment`: scan the keyword list in
order and report whether any keyword occurs in the (lowercased) text. -/
def checkKeywords (lower : List Char) : List (List Char) → Bool
  | [] => false
  | kw :: rest => if containsSub lower kw then true else checkKeywords lower rest

/-- `analyze_sentiment` of `modules/sentiment_analyzer.py`.
Non-string input yields 0; a text containing a negative keyword
(case-insensitively) yields the fixed polarity -0.8 (= -(4/5)); otherwise
the TextBlob polarity `tb` of the original text is returned. -/
def analyze_sentiment (tb : List Char → ℚ) : PyVal → ℚ
  | .nonStr => 0
  | .str s =>
    if checkKeywords (s.map Char.toLower) NEGATIVE_KEYWORDS then -(4/5) else tb s

/-- `analyze_sentiment_batch`: the per-item map over a list of texts. -/
def analyze_sentiment_batch (tb : List Char → ℚ) (texts : List PyVal) : List ℚ :=
  texts.map (analyze_sentiment tb)

/-- The sentiment classification lambda of `process_reviews` (also
repeated verbatim in `get_sentiment_metrics_for_comparison`):
`'Positive' if p > pos_threshold else ('Negative' if p < neg_threshold
else 'Neutral')`. -/
def classify (p pos_threshold neg_threshold : ℚ) : Sentiment :=
  if p > pos_threshold then .Positive
  else if p < neg_threshold then .Negative
  else .Neutral

/-- A cell of the `at` column, modelled by what `pd.to_datetime` does
with it: either the cell parses to a canonical datetime (modelled as an
integer), or `pd.to_datetime` raises on it (its default is
`errors = raise`, e.g. on the string "garbage"). -/
inductive AtVal where
  | parseable (t : ℤ)
  | unparseable
deriving DecidableEq, Repr

/-- A pandas DataFrame of raw reviews, as consumed by `process_reviews`:
`hasContent` and `hasAt` record whether the `content` and `at` columns
exist (`'content' in df.columns`, `'at' in df.columns`), `content` holds
the cells of the `content` column and `atCol` the cells of the `at`
column. -/
structure ReviewsDF where
  hasContent : Bool
  hasAt : Bool
  content : List PyVal
  atCol : List AtVal
deriving DecidableEq, Repr

/-- The columns `process_reviews` writes into the caller's frame before
the timestamp parse of line 82 (`df['polarity']`, `df['sentiment']`),
plus the sequence of values passed to the progress observer
(`progress_bar.progress`), in emission order.  These mutations are
visible to the caller even when the subsequent `pd.to_datetime` call
raises. -/
structure MutatedColumns where
  polarity : List ℚ
  sentiment : List Sentiment
  progressEvents : List ℚ
deriving DecidableEq, Repr

/-- The frame returned by a successful `process_reviews` run: the
mutated columns together with the `datetime` column produced by
`pd.to_datetime(df['at'])`. -/
structure ProcessedDF where
  polarity : List ℚ
  sentiment : List Sentiment
  progressEvents : List ℚ
  datetime : List ℤ
deriving DecidableEq, Repr

/-- `pd.to_datetime(df['at'])` over the whole column: the parsed
datetime column when every cell parses, and a raise as soon as any cell
is unparseable. -/
def to_datetime : List AtVal → Except String (List ℤ)
  | [] => .ok []
  | .unparseable :: _ => .error "Unknown datetime string format"
  | .parseable t :: rest =>
    match to_datetime rest with
    | .ok ts => .ok (t :: ts)
    | .error e => .error e

/-- The batch start indices of the loop `for i in range(0, total_reviews,
batch_size)` with `batch_size = 100`: `0, 100, 200, …`, one per batch;
`(total + 99) / 100` (natural division) is the number of batches. -/
def batchIndices (total : ℕ) : List ℕ :=
  (List.range ((total + 99) / 100)).map (fun b => b * 100)

/-- The progress value emitted after the batch starting at index `i`:
`min(0.2 + (i + batch_size) / total_reviews * 0.6, 0.8)` with
`batch_size = 100` (0.2, 0.6, 0.8 written as 1/5, 3/5, 4/5). -/
def progressVal (total i : ℕ) : ℚ :=
  min (1/5 + (((i : ℚ) + 100) / (total : ℚ)) * (3/5)) (4/5)

/-- Lines 67–81 of `process_reviews`: score each batch
`df['content'][i:i+100]` with `analyze_sentiment_batch`, emit a progress
value per batch, and classify every polarity with the threshold lambda.
These are in-place mutations of the caller's frame (plus observer
calls), performed before the line-82 timestamp parse. -/
def review_mutation (tb : List Char → ℚ) (content : List PyVal)
    (pos_threshold neg_threshold : ℚ) : MutatedColumns :=
  let total := content.length
  let polarities :=
    ((batchIndices total).map
      (fun i => analyze_sentiment_batch tb ((content.drop i).take 100))).flatten
  { polarity := polarities
    sentiment := polarities.map (fun p => classify p pos_threshold neg_threshold)
    progressEvents := (batchIndices total).map (fun i => progressVal total i) }

/-- `process_reviews` of `modules/sentiment_analyzer.py`, invoked with a
progress observer.  Raises `ValueError` when the `content` or `at`
column is missing; otherwise mutates the polarity/sentiment columns in
batches (`review_mutation`), then parses the timestamp column with
`pd.to_datetime(df['at'])` (line 82), which itself raises when some `at`
cell is unparseable; on success the mutated frame with its new
`datetime` column is returned. -/
def process_reviews (tb : List Char → ℚ) (df : ReviewsDF)
    (pos_threshold neg_threshold : ℚ) : Except String ProcessedDF :=
  if df.hasContent = false ∨ df.hasAt = false then
    .error "DataFrame must contain content and at columns."
  else
    let m := review_mutation tb df.content pos_threshold neg_threshold
    match to_datetime df.atCol with
    | .error e => .error e
    | .ok dts =>
      .ok { polarity := m.polarity
            sentiment := m.sentiment
            progressEvents := m.progressEvents
            datetime := dts }

/-- The naive per-item pipeline of `get_sentiment_metrics_for_comparison`
in `fraud_app_analyzer3.py`: `df_app['content'].apply(analyze_sentiment)`
followed by the same classification lambda, with no batching. -/
def comparison_polarity (tb : List Char → ℚ) (content : List PyVal) : List ℚ :=
  content.map (analyze_sentiment tb)

/-- The sentiment column of the naive per-item pipeline. -/
def comparison_sentiment (tb : List Char → ℚ) (content : List PyVal)
    (pos_threshold neg_threshold : ℚ) : List Sentiment :=
  (comparison_polarity tb content).map (fun p => classify p pos_threshold neg_threshold)

/-- `filtered_df['sentiment'].value_counts()`: the finite map from each
sentiment label occurring in the column to its number of occurrences;
labels with zero occurrences are absent, as in pandas (entry order is
immaterial for every claim, so the candidate labels are scanned in a
fixed order). -/
def value_counts (l : List Sentiment) : List (Sentiment × ℕ) :=
  ([Sentiment.Positive, Sentiment.Negative, Sentiment.Neutral].map
    (fun s => (s, l.count s))).filter (fun p => p.2 != 0)

/-- `sentiment_counts.get(label, 0)`: read a label's count with default
0 when the label is absent from the mapping. -/
def countsGet (counts : List (Sentiment × ℕ)) (s : Sentiment) : ℕ :=
  (counts.lookup s).getD 0

/-- The tuple returned by `calculate_sentiment_metrics`. -/
structure Metrics where
  counts : List (Sentiment × ℕ)
  positive_pct : ℚ
  negative_pct : ℚ
  neutral_pct : ℚ
  app_rating_score : ℚ
  playstore_score : ℚ
deriving DecidableEq, Repr

/-- `calculate_sentiment_metrics` of `modules/sentiment_analyzer.py`.
`app_details` is modelled as `Option (Option ℚ)`: `none` is a missing
metadata dict (`app_details` falsy), `some none` a dict whose `score` is
absent or `None`, and `some (some sc)` a present score `sc`. -/
def calculate_sentiment_metrics (l : List Sentiment)
    (app_details : Option (Option ℚ)) : Metrics :=
  let sentiment_counts := value_counts l
  let total_reviews := l.length
  let positive_pct : ℚ :=
    if total_reviews > 0 then
      ((countsGet sentiment_counts .Positive : ℚ) / (total_reviews : ℚ)) * 100
    else 0
  let negative_pct : ℚ :=
    if total_reviews > 0 then
      ((countsGet sentiment_counts .Negative : ℚ) / (total_reviews : ℚ)) * 100
    else 0
  let neutral_pct : ℚ :=
    if total_reviews > 0 then
      ((countsGet sentiment_counts .Neutral : ℚ) / (total_reviews : ℚ)) * 100
    else 0
  let playstore_score : ℚ :=
    match app_details with
    | some (some sc) => sc * 20
    | _ => 0
  let total_sentiment_reviews :=
    countsGet sentiment_counts .Positive + countsGet sentiment_counts .Negative +
      countsGet sentiment_counts .Neutral
  let app_rating_score : ℚ :=
    if total_sentiment_reviews > 0 then
      min 100 (positive_pct +
        (if positive_pct + negative_pct > 0 then
          neutral_pct * (positive_pct / (positive_pct + negative_pct))
        else 0))
    else 0
  { counts := sentiment_counts
    positive_pct := positive_pct
    negative_pct := negative_pct
    neutral_pct := neutral_pct
    app_rating_score := app_rating_score
    playstore_score := playstore_score }

/-- The module-level risk check of `fraud_app_analyzer3.py`:
`negative_pct > fraud_threshold` over the metrics of the analyzed
collection (the sole user-facing fraud signal). -/
def is_risky (l : List Sentiment) (app_details : Option (Option ℚ))
    (alert_threshold : ℚ) : Bool :=
  decide ((calculate_sentiment_metrics l app_details).negative_pct > alert_threshold)

/-- `get_score_color` of `modules/sentiment_analyzer.py`: the VirusTotal
style three-tier color for a score on a given scale. -/
def get_score_color (score : ℚ) (scale : ℚ) : String :=
  let score_pct : ℚ := if scale ≠ 0 then (score / scale) * 100 else 0
  if score_pct ≥ 75 then "#27ae60"
  else if score_pct ≥ 40 then "#f39c12"
  else "#e74c3c"

/-! ## Substring machinery lemmas -/

theorem startsWithChars_nil (hay : List Char) : startsWithChars hay [] = true := by
  cases hay <;> rfl

theorem startsWithChars_append (kw post : List Char) :
    startsWithChars (kw ++ post) kw = true := by
  induction kw with
  | nil => exact startsWithChars_nil post
  | cons c kw ih => simp [startsWithChars, ih]

theorem containsSub_nil (hay : List Char) : containsSub hay [] = true := by
  cases hay <;> simp [containsSub, startsWithChars]

theorem containsSub_append (pre kw post : List Char) :
    containsSub (pre ++ kw ++ post) kw = true := by
  induction pre with
  | nil =>
    cases kw with
    | nil => exact containsSub_nil post
    | cons c kw =>
      show containsSub (c :: (kw ++ post)) (c :: kw) = true
      rw [containsSub]
      have h := startsWithChars_append (c :: kw) post
      rw [List.cons_append] at h
      rw [h]
      simp
  | cons a pre ih =>
    show containsSub (a :: (pre ++ kw ++ post)) kw = true
    rw [containsSub, ih]
    simp

theorem checkKeywords_of_mem {lower kw : List Char} {ks : List (List Char)}
    (hmem : kw ∈ ks) (hc : containsSub lower kw = true) :
    checkKeywords lower ks = true := by
  induction ks with
  | nil => cases hmem
  | cons k rest ih =>
    rw [checkKeywords]
    split_ifs with h
    · rfl
    · rcases List.mem_cons.mp hmem with rfl | hm
      · exact absurd hc h
      · exact ih hm

/-! ## Claim C1: the classification rule -/

/-- C1 (amended): the classifier assigns Positive exactly when
`p > pos_threshold`, Negative exactly when `p < neg_threshold` and not
Positive, and Neutral otherwise, applying the rule literally with no
validation of threshold ordering; whenever `neg_threshold ≤ pos_threshold`
(in particular for the intended configurations) the boundary values
`p = pos_threshold` and `p = neg_threshold` resolve to Neutral. -/
theorem classify_rule (p pos neg : ℚ) :
    (classify p pos neg = .Positive ↔ p > pos) ∧
    (classify p pos neg = .Negative ↔ (p < neg ∧ ¬ p > pos)) ∧
    (classify p pos neg = .Neutral ↔ (¬ p > pos ∧ ¬ p < neg)) ∧
    (neg ≤ pos → classify pos pos neg = .Neutral ∧ classify neg pos neg = .Neutral) := by
  refine ⟨?_, ?_, ?_, fun h => ⟨?_, ?_⟩⟩ <;>
    · unfold classify
      split_ifs with h1 h2 <;> simp_all <;> linarith

/-- C1 counterexample: with inverted thresholds `pos_threshold = 0`,
`neg_threshold = 1` (which the claim itself admits, since no ordering is
validated), the boundary polarity `p = pos_threshold = 0` is classified
Negative, not Neutral. -/
theorem classify_boundary_counterexample :
    classify 0 0 1 = .Negative ∧ classify 0 0 1 ≠ .Neutral := by
  have h : classify 0 0 1 = .Negative := by
    unfold classify
    norm_num
  exact ⟨h, by rw [h]; decide⟩

/-- Witness for `classify_rule`: with the default thresholds
(0.1, -0.1) both boundary polarities classify as Neutral. -/
theorem classify_rule_witness :
    classify (1/10) (1/10) (-(1/10)) = .Neutral ∧
    classify (-(1/10)) (1/10) (-(1/10)) = .Neutral :=
  (classify_rule 0 (1/10) (-(1/10))).2.2.2 (by norm_num)

/-! ## Claim C2: the lexical override -/

/-- C2: any text containing a fraud-indicator keyword as a
case-insensitive substring is scored exactly -0.8 by `analyze_sentiment`,
regardless of the TextBlob polarity model `tb`, and with the default
thresholds (0.1, -0.1) such a text is classified Negative. -/
theorem keyword_override (tb : List Char → ℚ) (s : List Char)
    (h : ∃ kw ∈ NEGATIVE_KEYWORDS, ∃ pre post, s.map Char.toLower = pre ++ kw ++ post) :
    analyze_sentiment tb (.str s) = -(4/5) ∧
    classify (analyze_sentiment tb (.str s)) (1/10) (-(1/10)) = .Negative := by
  obtain ⟨kw, hkw, pre, post, hdecomp⟩ := h
  have h1 : checkKeywords (s.map Char.toLower) NEGATIVE_KEYWORDS = true := by
    apply checkKeywords_of_mem hkw
    rw [hdecomp]
    exact containsSub_append pre kw post
  have h2 : analyze_sentiment tb (.str s) = -(4/5) := by
    simp only [analyze_sentiment]
    rw [if_pos h1]
  refine ⟨h2, ?_⟩
  rw [h2]
  unfold classify
  norm_num

/-- Witness for `keyword_override`: the scenario text of the spec,
"This app is a total scam, uninstall now", with a TextBlob stub. -/
theorem keyword_override_witness :
    analyze_sentiment (fun _ => 0) (.str "This app is a total scam, uninstall now".toList) = -(4/5) ∧
    classify (analyze_sentiment (fun _ => 0) (.str "This app is a total scam, uninstall now".toList))
      (1/10) (-(1/10)) = .Negative :=
  keyword_override (fun _ => 0) "This app is a total scam, uninstall now".toList
    ⟨"scam".toList, by decide, "this app is a total ".toList, ", uninstall now".toList, by decide⟩

/-! ## Batching lemmas -/

theorem length_le_batchCount_mul (total : ℕ) : total ≤ ((total + 99) / 100) * 100 := by
  have h1 := Nat.div_add_mod (total + 99) 100
  have h2 : (total + 99) % 100 < 100 := Nat.mod_lt _ (by norm_num)
  omega

theorem chunks_map_flatten {α β : Type} (f : α → β) :
    ∀ (n : ℕ) (xs : List α), xs.length ≤ n * 100 →
      ((List.range n).map (fun k => ((xs.drop (k * 100)).take 100).map f)).flatten
        = xs.map f := by
  intro n
  induction n with
  | zero =>
    intro xs h
    have hx : xs = [] := List.eq_nil_of_length_eq_zero (Nat.le_zero.mp h)
    simp [hx]
  | succ n ih =>
    intro xs h
    rw [List.range_succ_eq_map]
    simp only [List.map_cons, List.map_map, List.flatten_cons]
    have hdrop : ∀ k : ℕ, xs.drop ((k + 1) * 100) = (xs.drop 100).drop (k * 100) := by
      intro k
      rw [List.drop_drop]
      congr 1
      ring
    have htail :
        ((List.range n).map ((fun k => ((xs.drop (k * 100)).take 100).map f) ∘ Nat.succ)).flatten
          = (xs.drop 100).map f := by
      have hlen : (xs.drop 100).length ≤ n * 100 := by
        rw [List.length_drop]
        omega
      calc ((List.range n).map ((fun k => ((xs.drop (k * 100)).take 100).map f) ∘ Nat.succ)).flatten
          = ((List.range n).map (fun k => (((xs.drop 100).drop (k * 100)).take 100).map f)).flatten := by
            congr 1
            apply List.map_congr_left
            intro k _
            simp only [Function.comp_apply, Nat.succ_eq_add_one]
            rw [hdrop k]
        _ = (xs.drop 100).map f := ih (xs.drop 100) hlen
    rw [htail]
    simp only [Nat.zero_mul, List.drop_zero]
    rw [← List.map_append, List.take_append_drop]

theorem batched_polarity (f : PyVal → ℚ) (xs : List PyVal) :
    ((batchIndices xs.length).map (fun i => ((xs.drop i).take 100).map f)).flatten
      = xs.map f := by
  unfold batchIndices
  rw [List.map_map]
  exact chunks_map_flatten f _ xs (length_le_batchCount_mul xs.length)

/-- `pd.to_datetime` over the `at` column raises exactly when some cell
is unparseable. -/
theorem to_datetime_error_iff (ats : List AtVal) :
    (∃ e, to_datetime ats = .error e) ↔ AtVal.unparseable ∈ ats := by
  induction ats with
  | nil => simp [to_datetime]
  | cons a rest ih =>
    cases a with
    | unparseable => simp [to_datetime]
    | parseable t =>
      have hstep : (∃ e, to_datetime (AtVal.parseable t :: rest) = .error e) ↔
          (∃ e, to_datetime rest = .error e) := by
        cases hdt : to_datetime rest with
        | error e => simp [to_datetime, hdt]
        | ok ts => simp [to_datetime, hdt]
      rw [hstep, ih]
      simp

/-- The `polarity` column written by the mutation phase is exactly the
per-item map of `analyze_sentiment` over the `content` column. -/
theorem review_mutation_polarity (tb : List Char → ℚ) (content : List PyVal)
    (pos_threshold neg_threshold : ℚ) :
    (review_mutation tb content pos_threshold neg_threshold).polarity =
      content.map (analyze_sentiment tb) := by
  show ((batchIndices content.length).map
      (fun i => analyze_sentiment_batch tb ((content.drop i).take 100))).flatten = _
  unfold analyze_sentiment_batch
  exact batched_polarity (analyze_sentiment tb) content

/-! ## Claim C9: batching has no semantic effect -/

/-- C9: with both required columns present, the polarity and sentiment
columns that `process_reviews` mutates into the frame (before the
line-82 timestamp parse, hence on every such run) are exactly those of
the naive per-item pipeline used by `get_sentiment_metrics_for_comparison`
(index-preserving; batching into chunks of 100 has no semantic effect);
and whenever the timestamp column parses, `process_reviews` returns
exactly these columns. -/
theorem process_reviews_matches_naive (tb : List Char → ℚ) (df : ReviewsDF)
    (pos_threshold neg_threshold : ℚ)
    (h1 : df.hasContent = true) (h2 : df.hasAt = true) :
    (review_mutation tb df.content pos_threshold neg_threshold).polarity =
      comparison_polarity tb df.content ∧
    (review_mutation tb df.content pos_threshold neg_threshold).sentiment =
      comparison_sentiment tb df.content pos_threshold neg_threshold ∧
    (∀ dts, to_datetime df.atCol = .ok dts →
      process_reviews tb df pos_threshold neg_threshold =
        .ok { polarity := comparison_polarity tb df.content
              sentiment := comparison_sentiment tb df.content pos_threshold neg_threshold
              progressEvents :=
                (batchIndices df.content.length).map
                  (fun i => progressVal df.content.length i)
              datetime := dts }) := by
  have hp : (review_mutation tb df.content pos_threshold neg_threshold).polarity =
      comparison_polarity tb df.content :=
    review_mutation_polarity tb df.content pos_threshold neg_threshold
  have hs : (review_mutation tb df.content pos_threshold neg_threshold).sentiment =
      comparison_sentiment tb df.content pos_threshold neg_threshold := by
    show ((review_mutation tb df.content pos_threshold neg_threshold).polarity).map
        (fun p => classify p pos_threshold neg_threshold) = _
    rw [hp]
    rfl
  refine ⟨hp, hs, fun dts hdt => ?_⟩
  unfold process_reviews
  rw [h1, h2]
  simp only [Bool.true_eq_false, or_self, if_false, hdt]
  rw [hp, hs]
  rfl

/-- Witness for `process_reviews_matches_naive`: a concrete two-review
frame with parseable timestamps (121 reviews would split into two
batches; one suffices to exercise the equality). -/
theorem process_reviews_matches_naive_witness :
    process_reviews (fun _ => 0)
        ⟨true, true, [PyVal.nonStr, PyVal.str "scam".toList],
          [AtVal.parseable 0, AtVal.parseable 1]⟩ (1/10) (-(1/10)) =
      .ok { polarity := comparison_polarity (fun _ => 0) [PyVal.nonStr, PyVal.str "scam".toList]
            sentiment := comparison_sentiment (fun _ => 0) [PyVal.nonStr, PyVal.str "scam".toList]
              (1/10) (-(1/10))
            progressEvents := (batchIndices 2).map (fun i => progressVal 2 i)
            datetime := [0, 1] } :=
  (process_reviews_matches_naive (fun _ => 0)
    ⟨true, true, [PyVal.nonStr, PyVal.str "scam".toList],
      [AtVal.parseable 0, AtVal.parseable 1]⟩ (1/10) (-(1/10)) rfl rfl).2.2 [0, 1] rfl

/-! ## Claim C7: the error behaviour -/

/-- C7 (amended): `process_reviews` raises the structural `ValueError`
exactly when the `content` or `at` column is missing; with both columns
present it can still raise, namely from `pd.to_datetime(df['at'])` when
some `at` cell is unparseable — so overall it raises iff a column is
missing or some timestamp cell is unparseable.  Per-item review-text
handling never fails the batch: a non-string text is silently scored 0,
and when every timestamp cell parses the run succeeds with one polarity
per input review. -/
theorem process_reviews_error_spec (tb : List Char → ℚ) (df : ReviewsDF)
    (pos_threshold neg_threshold : ℚ) :
    ((df.hasContent = false ∨ df.hasAt = false) →
      process_reviews tb df pos_threshold neg_threshold =
        .error "DataFrame must contain content and at columns.") ∧
    ((∃ e, process_reviews tb df pos_threshold neg_threshold = .error e) ↔
      (df.hasContent = false ∨ df.hasAt = false ∨ AtVal.unparseable ∈ df.atCol)) ∧
    analyze_sentiment tb PyVal.nonStr = 0 ∧
    (df.hasContent = true → df.hasAt = true → AtVal.unparseable ∉ df.atCol →
      ∃ out, process_reviews tb df pos_threshold neg_threshold = .ok out ∧
        out.polarity = df.content.map (analyze_sentiment tb)) := by
  by_cases hc : df.hasContent = false ∨ df.hasAt = false
  · have herr : process_reviews tb df pos_threshold neg_threshold =
        .error "DataFrame must contain content and at columns." := by
      unfold process_reviews
      rw [if_pos hc]
    refine ⟨fun _ => herr, ⟨fun _ => Or.imp id Or.inl hc, fun _ => ⟨_, herr⟩⟩, rfl, ?_⟩
    intro h1 h2 _
    rcases hc with hc | hc <;> simp_all
  · cases hdt : to_datetime df.atCol with
    | error e =>
      have herr : process_reviews tb df pos_threshold neg_threshold = .error e := by
        unfold process_reviews
        rw [if_neg hc]
        simp only [hdt]
      have hmem : AtVal.unparseable ∈ df.atCol :=
        (to_datetime_error_iff df.atCol).mp ⟨e, hdt⟩
      refine ⟨fun h => absurd h hc,
        ⟨fun _ => Or.inr (Or.inr hmem), fun _ => ⟨e, herr⟩⟩, rfl, ?_⟩
      intro _ _ hnm
      exact absurd hmem hnm
    | ok dts =>
      have hok : process_reviews tb df pos_threshold neg_threshold =
          .ok { polarity := (review_mutation tb df.content pos_threshold neg_threshold).polarity
                sentiment := (review_mutation tb df.content pos_threshold neg_threshold).sentiment
                progressEvents :=
                  (review_mutation tb df.content pos_threshold neg_threshold).progressEvents
                datetime := dts } := by
        unfold process_reviews
        rw [if_neg hc]
        simp only [hdt]
      have hnm : AtVal.unparseable ∉ df.atCol := by
        intro hmem
        obtain ⟨e, he⟩ := (to_datetime_error_iff df.atCol).mpr hmem
        rw [he] at hdt
        cases hdt
      refine ⟨fun h => absurd h hc, ⟨?_, ?_⟩, rfl, ?_⟩
      · rintro ⟨e, he⟩
        rw [hok] at he
        cases he
      · rintro (h | h | h)
        · exact absurd (Or.inl h) hc
        · exact absurd (Or.inr h) hc
        · exact absurd h hnm
      · intro _ _ _
        exact ⟨_, hok, review_mutation_polarity tb df.content pos_threshold neg_threshold⟩

/-- C7 counterexample: the frame `DataFrame({'content': ['x'], 'at':
['garbage']})` has both required columns, yet `process_reviews` raises —
from the timestamp parse, not from a missing field — falsifying the
claimed "error iff a field is missing" and "with both fields present the
batch never fails on account of an individual item". -/
theorem process_reviews_at_counterexample :
    (∃ e, process_reviews (fun _ => 0)
      ⟨true, true, [PyVal.str "x".toList], [AtVal.unparseable]⟩
      (1/10) (-(1/10)) = .error e) ∧
    (⟨true, true, [PyVal.str "x".toList], [AtVal.unparseable]⟩ : ReviewsDF).hasContent = true ∧
    (⟨true, true, [PyVal.str "x".toList], [AtVal.unparseable]⟩ : ReviewsDF).hasAt = true := by
  refine ⟨⟨"Unknown datetime string format", ?_⟩, rfl, rfl⟩
  unfold process_reviews
  rw [if_neg (by simp)]
  rfl

/-- Witness for `process_reviews_error_spec`: a frame missing the
`content` column raises the structural `ValueError`; a frame whose
single review text is a non-string and whose timestamp parses succeeds
with polarity 0. -/
theorem process_reviews_error_spec_witness :
    process_reviews (fun _ => 0) ⟨false, true, [], []⟩ (1/10) (-(1/10)) =
      .error "DataFrame must contain content and at columns." ∧
    (∃ out, process_reviews (fun _ => 0)
        ⟨true, true, [PyVal.nonStr], [AtVal.parseable 0]⟩ (1/10) (-(1/10)) = .ok out ∧
      out.polarity = [0]) := by
  constructor
  · exact (process_reviews_error_spec (fun _ => 0) ⟨false, true, [], []⟩
      (1/10) (-(1/10))).1 (Or.inl rfl)
  · obtain ⟨out, h1, h2⟩ :=
      (process_reviews_error_spec (fun _ => 0)
        ⟨true, true, [PyVal.nonStr], [AtVal.parseable 0]⟩
        (1/10) (-(1/10))).2.2.2 rfl rfl (by decide)
    exact ⟨out, h1, by rw [h2]; rfl⟩

/-! ## Claim C8: progress reporting -/

theorem progressVal_mono (total : ℕ) {i j : ℕ} (hij : i ≤ j) :
    progressVal total i ≤ progressVal total j := by
  unfold progressVal
  apply min_le_min _ le_rfl
  have h0 : (0:ℚ) ≤ (total : ℚ) := Nat.cast_nonneg total
  have hij' : (i:ℚ) ≤ (j:ℚ) := by exact_mod_cast hij
  have hdiv : ((i:ℚ) + 100) / total ≤ ((j:ℚ) + 100) / total :=
    div_le_div_of_nonneg_right (by linarith) h0
  linarith

/-- The progress events actually produced by a successful
`process_reviews` run. -/
theorem progressEvents_of_ok (tb : List Char → ℚ) (df : ReviewsDF)
    (pos_threshold neg_threshold : ℚ) (out : ProcessedDF)
    (h : process_reviews tb df pos_threshold neg_threshold = .ok out) :
    out.progressEvents =
      (batchIndices df.content.length).map (fun i => progressVal df.content.length i) := by
  unfold process_reviews at h
  split_ifs at h with hc
  cases hdt : to_datetime df.atCol with
  | error e =>
    rw [hdt] at h
    cases h
  | ok dts =>
    rw [hdt] at h
    cases h
    rfl

/-- C8: within one `process_reviews` invocation with a progress observer,
the emitted progress values are pairwise non-decreasing, and once every
review has been processed the final emitted value is the stage's full
progress value 0.8 (the `min(progress, 0.8)` cap reached on the last
batch). -/
theorem progress_events_spec (tb : List Char → ℚ) (df : ReviewsDF)
    (pos_threshold neg_threshold : ℚ) (out : ProcessedDF)
    (h : process_reviews tb df pos_threshold neg_threshold = .ok out) :
    List.Pairwise (· ≤ ·) out.progressEvents ∧
    (df.content ≠ [] → out.progressEvents.getLast? = some (4/5)) := by
  have hev := progressEvents_of_ok tb df pos_threshold neg_threshold out h
  set total := df.content.length with htotal
  constructor
  · rw [hev]
    unfold batchIndices
    rw [List.map_map]
    refine List.Pairwise.map _ ?_ (List.pairwise_lt_range _)
    intro a b hab
    exact progressVal_mono total (by simpa using Nat.mul_le_mul_right 100 (Nat.le_of_lt hab))
  · intro hne
    have hpos : 0 < total := by
      rw [htotal]
      exact List.length_pos.mpr hne
    have hn : 0 < (total + 99) / 100 := by
      apply Nat.div_pos <;> omega
    obtain ⟨m, hm⟩ : ∃ m, (total + 99) / 100 = m + 1 :=
      ⟨(total + 99) / 100 - 1, by omega⟩
    have hle : total ≤ (m + 1) * 100 := by
      have := length_le_batchCount_mul total
      rw [hm] at this
      exact this
    rw [hev]
    unfold batchIndices
    rw [hm, List.range_succ, List.map_append, List.map_append, List.map_map,
      List.map_map]
    simp only [List.map_cons, List.map_nil]
    rw [List.getLast?_concat]
    congr 1
    unfold progressVal
    apply min_eq_right
    have htpos : (0:ℚ) < (total : ℚ) := by exact_mod_cast hpos
    have hdiv : (1:ℚ) ≤ (((m * 100 : ℕ) : ℚ) + 100) / (total : ℚ) := by
      rw [le_div_iff₀ htpos]
      have : ((total : ℕ) : ℚ) ≤ ((m : ℚ) + 1) * 100 := by exact_mod_cast hle
      push_cast
      linarith
    linarith

/-- Witness for `progress_events_spec`: one review, one batch, and the
single emitted progress value is the cap 0.8. -/
theorem progress_events_spec_witness :
    List.Pairwise (· ≤ ·) ([4/5] : List ℚ) ∧
    ([4/5] : List ℚ).getLast? = some (4/5) := by
  have h := progress_events_spec (fun _ => 0)
      ⟨true, true, [PyVal.nonStr], [AtVal.parseable 0]⟩
      (1/10) (-(1/10)) ⟨[0], [Sentiment.Neutral], [4/5], [0]⟩ ?h
  · exact ⟨h.1, h.2 (by simp)⟩
  case h =>
    unfold process_reviews review_mutation
    rw [if_neg (by simp)]
    have hdt : to_datetime [AtVal.parseable 0] = .ok [0] := rfl
    have hbi : batchIndices ([PyVal.nonStr] : List PyVal).length = [0] := by decide
    have htake : (([PyVal.nonStr] : List PyVal).drop 0).take 100 = [PyVal.nonStr] := by decide
    simp only [hdt, hbi, List.map_cons, List.map_nil, List.flatten_cons, List.flatten_nil,
      htake, List.append_nil]
    have hpv : progressVal ([PyVal.nonStr] : List PyVal).length 0 = 4/5 := by
      unfold progressVal
      rw [min_eq_right (by norm_num)]
    rw [hpv]
    norm_num [analyze_sentiment_batch, analyze_sentiment, classify]

/-! ## Counts lemmas -/

theorem count_sum (l : List Sentiment) :
    l.count .Positive + l.count .Negative + l.count .Neutral = l.length := by
  induction l with
  | nil => rfl
  | cons a t ih => cases a <;> simp [List.count_cons] <;> omega

theorem countsGet_value_counts (l : List Sentiment) (s : Sentiment) :
    countsGet (value_counts l) s = l.count s := by
  cases s <;>
    · unfold value_counts countsGet
      by_cases h1 : l.count Sentiment.Positive = 0 <;>
        by_cases h2 : l.count Sentiment.Negative = 0 <;>
        by_cases h3 : l.count Sentiment.Neutral = 0 <;>
        simp [List.filter_cons, List.filter_nil, List.lookup,
          show ∀ a b : Sentiment, (a == b) = decide (a = b) from fun _ _ => rfl,
          bne_iff_ne, h1, h2, h3]

theorem value_counts_sum (l : List Sentiment) :
    ((value_counts l).map (fun p => p.2)).sum = l.length := by
  unfold value_counts
  have hc := count_sum l
  by_cases h1 : l.count Sentiment.Positive = 0 <;>
    by_cases h2 : l.count Sentiment.Negative = 0 <;>
    by_cases h3 : l.count Sentiment.Neutral = 0 <;>
    (simp [List.filter_cons, List.filter_nil, bne_iff_ne, h1, h2, h3]; omega)

theorem mem_value_counts_keys (l : List Sentiment) (s : Sentiment) :
    s ∈ (value_counts l).map Prod.fst ↔ 0 < l.count s := by
  cases s <;>
    · unfold value_counts
      by_cases h1 : l.count Sentiment.Positive = 0 <;>
        by_cases h2 : l.count Sentiment.Negative = 0 <;>
        by_cases h3 : l.count Sentiment.Neutral = 0 <;>
        (simp [List.filter_cons, List.filter_nil, bne_iff_ne, h1, h2, h3]; try omega) <;>
        first
          | exact List.count_pos_iff.mp (Nat.pos_of_ne_zero h1)
          | exact List.count_pos_iff.mp (Nat.pos_of_ne_zero h2)
          | exact List.count_pos_iff.mp (Nat.pos_of_ne_zero h3)

/-! ## Claim C3: the app rating score formula -/

/-- C3: `app_rating_score` is 0 for an empty classified collection and
otherwise equals `min 100 pos_score` with
`pos_score = positive_pct + neutral_pct * (positive_pct / (positive_pct
+ negative_pct))` when `positive_pct + negative_pct > 0` and
`pos_score = positive_pct` otherwise. -/
theorem app_rating_score_spec (l : List Sentiment) (app_details : Option (Option ℚ)) :
    (l = [] → (calculate_sentiment_metrics l app_details).app_rating_score = 0) ∧
    (l ≠ [] → (calculate_sentiment_metrics l app_details).app_rating_score =
      if (calculate_sentiment_metrics l app_details).positive_pct +
          (calculate_sentiment_metrics l app_details).negative_pct > 0 then
        min 100 ((calculate_sentiment_metrics l app_details).positive_pct +
          (calculate_sentiment_metrics l app_details).neutral_pct *
            ((calculate_sentiment_metrics l app_details).positive_pct /
              ((calculate_sentiment_metrics l app_details).positive_pct +
                (calculate_sentiment_metrics l app_details).negative_pct)))
      else min 100 (calculate_sentiment_metrics l app_details).positive_pct) := by
  constructor
  · rintro rfl
    rfl
  · intro hne
    have hlen : 0 < l.length := List.length_pos.mpr hne
    have hts : 0 < countsGet (value_counts l) .Positive +
        countsGet (value_counts l) .Negative + countsGet (value_counts l) .Neutral := by
      rw [countsGet_value_counts, countsGet_value_counts, countsGet_value_counts, count_sum]
      exact hlen
    simp only [calculate_sentiment_metrics, gt_iff_lt, eq_true hlen, eq_true hts, if_true]
    split_ifs with h
    · rfl
    · norm_num

/-- Witness for `app_rating_score_spec`: 10 reviews split 7 Positive /
0 Negative / 3 Neutral score exactly 100. -/
theorem app_rating_score_spec_witness :
    (calculate_sentiment_metrics
      (List.replicate 7 Sentiment.Positive ++ List.replicate 3 Sentiment.Neutral)
      none).app_rating_score = 100 := by
  have h := (app_rating_score_spec
      (List.replicate 7 Sentiment.Positive ++ List.replicate 3 Sentiment.Neutral)
      none).2 (by decide)
  rw [h]
  have h7 : countsGet (value_counts
      (List.replicate 7 Sentiment.Positive ++ List.replicate 3 Sentiment.Neutral))
      Sentiment.Positive = 7 := by decide
  have h0 : countsGet (value_counts
      (List.replicate 7 Sentiment.Positive ++ List.replicate 3 Sentiment.Neutral))
      Sentiment.Negative = 0 := by decide
  have h3 : countsGet (value_counts
      (List.replicate 7 Sentiment.Positive ++ List.replicate 3 Sentiment.Neutral))
      Sentiment.Neutral = 3 := by decide
  have hlen : (List.replicate 7 Sentiment.Positive ++
      List.replicate 3 Sentiment.Neutral).length = 10 := by decide
  simp only [calculate_sentiment_metrics, h7, h0, h3, hlen]
  norm_num

/-! ## Claim C4: count and percentage consistency -/

/-- C4: the per-label counts sum to the size of the input collection;
for a non-empty collection each percentage is `count(label)/total * 100`
and the three percentages sum exactly to 100; for the empty collection
all three percentages are 0 (the division is never taken). -/
theorem counts_percentages (l : List Sentiment) (app_details : Option (Option ℚ)) :
    ((calculate_sentiment_metrics l app_details).counts.map (fun p => p.2)).sum = l.length ∧
    countsGet (calculate_sentiment_metrics l app_details).counts .Positive +
      countsGet (calculate_sentiment_metrics l app_details).counts .Negative +
      countsGet (calculate_sentiment_metrics l app_details).counts .Neutral = l.length ∧
    (0 < l.length →
      (calculate_sentiment_metrics l app_details).positive_pct =
        ((l.count .Positive : ℚ) / (l.length : ℚ)) * 100 ∧
      (calculate_sentiment_metrics l app_details).negative_pct =
        ((l.count .Negative : ℚ) / (l.length : ℚ)) * 100 ∧
      (calculate_sentiment_metrics l app_details).neutral_pct =
        ((l.count .Neutral : ℚ) / (l.length : ℚ)) * 100 ∧
      (calculate_sentiment_metrics l app_details).positive_pct +
        (calculate_sentiment_metrics l app_details).negative_pct +
        (calculate_sentiment_metrics l app_details).neutral_pct = 100) ∧
    ((calculate_sentiment_metrics ([] : List Sentiment) app_details).positive_pct = 0 ∧
     (calculate_sentiment_metrics ([] : List Sentiment) app_details).negative_pct = 0 ∧
     (calculate_sentiment_metrics ([] : List Sentiment) app_details).neutral_pct = 0) := by
  refine ⟨value_counts_sum l, ?_, ?_, rfl, rfl, rfl⟩
  · show countsGet (value_counts l) .Positive + countsGet (value_counts l) .Negative +
      countsGet (value_counts l) .Neutral = l.length
    rw [countsGet_value_counts, countsGet_value_counts, countsGet_value_counts, count_sum]
  · intro hlen
    have hP : (calculate_sentiment_metrics l app_details).positive_pct =
        ((l.count .Positive : ℚ) / (l.length : ℚ)) * 100 := by
      show (if 0 < l.length then
          ((countsGet (value_counts l) Sentiment.Positive : ℚ) / (l.length : ℚ)) * 100
        else 0) = _
      rw [if_pos hlen, countsGet_value_counts]
    have hN : (calculate_sentiment_metrics l app_details).negative_pct =
        ((l.count .Negative : ℚ) / (l.length : ℚ)) * 100 := by
      show (if 0 < l.length then
          ((countsGet (value_counts l) Sentiment.Negative : ℚ) / (l.length : ℚ)) * 100
        else 0) = _
      rw [if_pos hlen, countsGet_value_counts]
    have hU : (calculate_sentiment_metrics l app_details).neutral_pct =
        ((l.count .Neutral : ℚ) / (l.length : ℚ)) * 100 := by
      show (if 0 < l.length then
          ((countsGet (value_counts l) Sentiment.Neutral : ℚ) / (l.length : ℚ)) * 100
        else 0) = _
      rw [if_pos hlen, countsGet_value_counts]
    refine ⟨hP, hN, hU, ?_⟩
    rw [hP, hN, hU]
    have hlen0 : ((l.length : ℚ)) ≠ 0 :=
      Nat.cast_ne_zero.mpr (Nat.pos_iff_ne_zero.mp hlen)
    have hsum : ((l.count .Positive : ℚ)) + (l.count .Negative : ℚ) + (l.count .Neutral : ℚ)
        = (l.length : ℚ) := by exact_mod_cast count_sum l
    field_simp
    linarith

/-- Witness for `counts_percentages`: one Positive review — counts sum
to 1 and the percentages sum to 100. -/
theorem counts_percentages_witness :
    countsGet (calculate_sentiment_metrics [Sentiment.Positive] none).counts Sentiment.Positive +
      countsGet (calculate_sentiment_metrics [Sentiment.Positive] none).counts Sentiment.Negative +
      countsGet (calculate_sentiment_metrics [Sentiment.Positive] none).counts Sentiment.Neutral = 1 ∧
    (calculate_sentiment_metrics [Sentiment.Positive] none).positive_pct +
      (calculate_sentiment_metrics [Sentiment.Positive] none).negative_pct +
      (calculate_sentiment_metrics [Sentiment.Positive] none).neutral_pct = 100 :=
  ⟨(counts_percentages [Sentiment.Positive] none).2.1,
   ((counts_percentages [Sentiment.Positive] none).2.2.1 (by decide)).2.2.2⟩

/-! ## Claim C5: which labels appear in the counts mapping -/

/-- C5 (amended): the counts mapping contains exactly the labels that
occur at least once in the collection; a label with count zero is absent
from the mapping (not present with value zero), and the consumers'
default read `counts.get(label, 0)` recovers count 0 for it. -/
theorem counts_keys (l : List Sentiment) (app_details : Option (Option ℚ)) (s : Sentiment) :
    (s ∈ (calculate_sentiment_metrics l app_details).counts.map Prod.fst ↔ 0 < l.count s) ∧
    countsGet (calculate_sentiment_metrics l app_details).counts s = l.count s :=
  ⟨mem_value_counts_keys l s, countsGet_value_counts l s⟩

/-- C5 counterexample: for the one-review collection `[Positive]`, the
label Negative is not a key of the counts mapping at all, contradicting
"all three labels present, zero if absent". -/
theorem counts_keys_counterexample :
    Sentiment.Negative ∉ (calculate_sentiment_metrics [Sentiment.Positive] none).counts.map Prod.fst := by
  decide

/-! ## Claim C6: the risk decision -/

/-- C6: the risk decision is exactly `negative_pct > alert_threshold`;
no other input influences it (any two inputs with equal `negative_pct`
decide identically for every metadata value); and for the empty
collection it is False for every alert threshold in the configured
domain (the Risk Alert Threshold slider ranges over 10–50; any
non-negative threshold suffices). -/
theorem risk_decision (l l' : List Sentiment) (a a' : Option (Option ℚ)) (thr : ℚ)
    (hthr : 0 ≤ thr) :
    (is_risky l a thr = true ↔ (calculate_sentiment_metrics l a).negative_pct > thr) ∧
    ((calculate_sentiment_metrics l a).negative_pct
        = (calculate_sentiment_metrics l' a').negative_pct →
      is_risky l a thr = is_risky l' a' thr) ∧
    is_risky [] a thr = false := by
  refine ⟨decide_eq_true_iff, fun h => ?_, ?_⟩
  · unfold is_risky
    rw [h]
  · unfold is_risky
    have h0 : (calculate_sentiment_metrics ([] : List Sentiment) a).negative_pct = 0 := rfl
    rw [h0]
    exact decide_eq_false (not_lt.mpr hthr)

/-- Witness for `risk_decision`: 100 reviews with 35 Negative are risky
at threshold 30 and not at threshold 40; the empty collection is not
risky at threshold 30. -/
theorem risk_decision_witness :
    is_risky (List.replicate 35 Sentiment.Negative ++ List.replicate 65 Sentiment.Positive)
      none 30 = true ∧
    is_risky (List.replicate 35 Sentiment.Negative ++ List.replicate 65 Sentiment.Positive)
      none 40 = false ∧
    is_risky [] none 30 = false := by
  have hcnt : countsGet (value_counts
      (List.replicate 35 Sentiment.Negative ++ List.replicate 65 Sentiment.Positive))
      Sentiment.Negative = 35 := by decide
  have hlen : (List.replicate 35 Sentiment.Negative ++
      List.replicate 65 Sentiment.Positive).length = 100 := by decide
  have hnp : (calculate_sentiment_metrics
      (List.replicate 35 Sentiment.Negative ++ List.replicate 65 Sentiment.Positive)
      none).negative_pct = 35 := by
    show (if 0 < (List.replicate 35 Sentiment.Negative ++
        List.replicate 65 Sentiment.Positive).length then
        ((countsGet (value_counts (List.replicate 35 Sentiment.Negative ++
          List.replicate 65 Sentiment.Positive)) Sentiment.Negative : ℚ) /
          ((List.replicate 35 Sentiment.Negative ++
            List.replicate 65 Sentiment.Positive).length : ℚ)) * 100
      else 0) = 35
    rw [if_pos (by decide), hcnt, hlen]
    norm_num
  refine ⟨?_, ?_, ?_⟩
  · exact (risk_decision
      (List.replicate 35 Sentiment.Negative ++ List.replicate 65 Sentiment.Positive)
      (List.replicate 35 Sentiment.Negative ++ List.replicate 65 Sentiment.Positive)
      none none 30 (by norm_num)).1.mpr (by rw [hnp]; norm_num)
  · have h40 := (risk_decision
      (List.replicate 35 Sentiment.Negative ++ List.replicate 65 Sentiment.Positive)
      (List.replicate 35 Sentiment.Negative ++ List.replicate 65 Sentiment.Positive)
      none none 40 (by norm_num)).1
    rw [hnp] at h40
    cases hb : is_risky
        (List.replicate 35 Sentiment.Negative ++ List.replicate 65 Sentiment.Positive)
        none 40 with
    | false => rfl
    | true => exact absurd (h40.mp hb) (by norm_num)
  · exact (risk_decision [] [] none none 30 (by norm_num)).2.2

/-! ## Claim C10: totality of the score color -/

/-- C10: `get_score_color` always returns one of exactly three color
strings, and at `scale = 0` the guarded percentage is 0, so the result
is the unfavorable red "#e74c3c" with no division-by-zero error. -/
theorem get_score_color_total (score scale : ℚ) :
    (get_score_color score scale = "#27ae60" ∨ get_score_color score scale = "#f39c12" ∨
      get_score_color score scale = "#e74c3c") ∧
    get_score_color score 0 = "#e74c3c" := by
  constructor
  · simp only [get_score_color]
    split_ifs <;> simp
  · simp only [get_score_color]
    norm_num

end FraudAppAnalyser
